import Mathlib

/-!
# Client layer of yet-another-cloudwatch-exporter

A shallow embedding of `pkg/clients/tagging/client.go` and
`pkg/clients/cloudwatch/v1/client.go`, followed by theorems about it.

Conventions of the embedding

* A Go function that can panic (nil pointer dereference, index out of range)
  returns an `Option`; `none` is the panic.
* A Go `(value, error)` result is a pair whose second component is an
  `Option GoError`; `none` is the nil error.  A nil slice and an empty slice are
  both the empty list.
* Pointers found in provider responses are `Option`s (`none` is the nil pointer).
  Pointers handed in by the caller (`job`, `metric`, the query entries) and the
  page pointer handed to a page handler are taken to be non-nil.
* The provider SDK is outside the repository.  One paged call is described by
  the pages the SDK would deliver, each with the `lastPage` flag it reports, and
  by the error it reports when the pages run out (`PagedResponse`, `eachPage`).
* Logging and the Prometheus counters are not modelled.
-/

set_option autoImplicit false

namespace Yace

/-! ## Errors -/

/-- An error value made by the provider SDK.  It is never one of the error
variables declared in this repository. -/
structure ProviderError where
  Code : String
  Message : String
deriving DecidableEq, Repr

/-- Go `error` values: `errors.New(text)`, an error handed over by the provider
SDK, and `fmt.Errorf` with a `%w` verb, which keeps the formatted text together
with the wrapped cause. -/
inductive GoError where
  | new (text : String)
  | provider (e : ProviderError)
  | errorf (text : String) (cause : GoError)
deriving DecidableEq, Repr

/-- The method `Error()`. -/
def GoError.Error : GoError → String
  | .new text => text
  | .provider e => e.Code ++ ": " ++ e.Message
  | .errorf text _ => text

/-- The function `errors.Unwrap`. -/
def GoError.Unwrap : GoError → Option GoError
  | .errorf _ cause => some cause
  | _ => none

/-! ## Paged provider calls -/

/-- What one paged provider call does: the pages it would hand to the handler,
in order, each with the `lastPage` flag reported with it, and the error the call
returns once the pages are exhausted. -/
structure PagedResponse (P : Type) where
  pages : List (P × Bool)
  err : Option ProviderError

/-- The pagination loop of the SDK (`XxxPagesWithContext`): the handler `fn` is
called on each page in turn and the loop stops as soon as `fn` answers `false`,
in which case no error is returned; when the pages run out the call returns the
pending error.  The handler works on a state `σ` (the variables it captures) and
may panic (`none`). -/
def eachPage {P σ : Type} (fn : σ → P → Bool → Option (σ × Bool)) :
    List (P × Bool) → Option ProviderError → σ → Option (σ × Option GoError)
  | [], err, s => some (s, err.map GoError.provider)
  | (page, lastPage) :: rest, err, s =>
    match fn s page lastPage with
    | none => none
    | some (s1, true) => eachPage fn rest err s1
    | some (s1, false) => some (s1, none)

/-- The pages a handler answering `!lastPage` gets to see: every page up to and
including the first one reported as the last. -/
def deliveredPages {P : Type} : List (P × Bool) → List P
  | [] => []
  | (page, lastPage) :: rest => page :: (if lastPage then [] else deliveredPages rest)

/-- The error a paged call returns to a handler answering `!lastPage`: none when
some page is reported as the last, the pending error otherwise. -/
def pagingError {P : Type} : List (P × Bool) → Option ProviderError → Option ProviderError
  | [], err => err
  | (_, lastPage) :: rest, err => if lastPage then none else pagingError rest err

/-- Apply a partial decoder to every element, in order; `none` as soon as one
element cannot be decoded. -/
def collect {α β : Type} (f : α → Option β) : List α → Option (List β)
  | [] => some []
  | a :: as =>
    match f a, collect f as with
    | some b, some bs => some (b :: bs)
    | _, _ => none

/-! ## Resource tagging client (`pkg/clients/tagging/client.go`) -/

namespace Tagging

/-- The type `model.Tag`. -/
structure Tag where
  Key : String
  Value : String
deriving DecidableEq, Repr

/-- The type `model.TaggedResource`. -/
structure TaggedResource where
  ARN : String
  Namespace : String
  Region : String
  Tags : List Tag
deriving DecidableEq, Repr

/-- The type `model.SearchTag`; the value is the source of its regular
expression. -/
structure SearchTag where
  Key : String
  Value : String
deriving DecidableEq, Repr

/-- The fields of `config.Job` read by the client (`Type_` is the Go field
`Type`). -/
structure Job where
  Type_ : String
  SearchTags : List SearchTag
deriving DecidableEq, Repr

/-- The fields of `config.ServiceConfig` read by the client. -/
structure ServiceConfig where
  Namespace : String
  ResourceFilters : List String
deriving DecidableEq, Repr

/-- The type `resourcegroupstaggingapi.GetResourcesInput`, as filled in by the
client. -/
structure GetResourcesInput where
  ResourceTypeFilters : List String
  ResourcesPerPage : Nat
deriving DecidableEq, Repr

/-- The type `resourcegroupstaggingapi.Tag`. -/
structure AwsTag where
  Key : Option String
  Value : Option String
deriving DecidableEq, Repr

/-- The type `resourcegroupstaggingapi.ResourceTagMapping`. -/
structure ResourceTagMapping where
  ResourceARN : Option String
  Tags : List (Option AwsTag)
deriving DecidableEq, Repr

/-- The type `resourcegroupstaggingapi.GetResourcesOutput`. -/
structure GetResourcesOutput where
  ResourceTagMappingList : List (Option ResourceTagMapping)
deriving DecidableEq, Repr

/-- One entry of the registry `serviceFilters`: the two optional hooks.  A hook
is given by what its call returns; `none` is the nil function. -/
structure ServiceFilter where
  ResourceFunc : Option (Job → String → List TaggedResource × Option GoError)
  FilterFunc : Option (List TaggedResource → List TaggedResource × Option GoError)

/-- The collaborators of `client.GetResources` that are declared outside
`client.go`: the lookup `config.SupportedServices.GetService` (a nil result is
`none`), the registry `serviceFilters`, the method
`model.TaggedResource.FilterThroughTags`, and the tagging provider. -/
structure Client where
  GetService : String → Option ServiceConfig
  serviceFilters : String → Option ServiceFilter
  FilterThroughTags : TaggedResource → List SearchTag → Bool
  GetResourcesPagesWithContext : GetResourcesInput → PagedResponse GetResourcesOutput

/-- The variable `ErrExpectedToFindResources`. -/
def ErrExpectedToFindResources : GoError :=
  GoError.new "expected to discover resources but none were found"

/-- The collaborator calls made by `GetResources`. -/
inductive Stage where
  | discovery
  | resourceFunc
  | filterFunc
deriving DecidableEq, Repr

/-- What a call of `GetResources` returns, together with the collaborator calls
it made, in order. -/
structure GetResourcesReturn where
  resources : List TaggedResource
  err : Option GoError
  calls : List Stage
deriving DecidableEq, Repr

/-- Lines 92-94: the loop appending one `model.Tag` per provider tag. -/
def appendTags : List (Option AwsTag) → List Tag → Option (List Tag)
  | [], tags => some tags
  | none :: _, _ => none
  | some t :: rest, tags =>
    match t.Key, t.Value with
    | some k, some v => appendTags rest (tags ++ [⟨k, v⟩])
    | _, _ => none

/-- Lines 84-101: the loop over `page.ResourceTagMappingList`. -/
def appendMappings (c : Client) (job : Job) (region : String) :
    List (Option ResourceTagMapping) → List TaggedResource → Option (List TaggedResource)
  | [], resources => some resources
  | none :: _, _ => none
  | some resourceTagMapping :: rest, resources =>
    match appendTags resourceTagMapping.Tags [] with
    | none => none
    | some tags =>
      let resource : TaggedResource :=
        ⟨resourceTagMapping.ResourceARN.getD "", job.Type_, region, tags⟩
      if c.FilterThroughTags resource job.SearchTags then
        appendMappings c job region rest (resources ++ [resource])
      else
        appendMappings c job region rest resources

/-- Lines 80-103: the page handler; its state is the captured `resources`. -/
def getResourcesPage (c : Client) (job : Job) (region : String)
    (resources : List TaggedResource) (page : GetResourcesOutput) (lastPage : Bool) :
    Option (List TaggedResource × Bool) :=
  match appendMappings c job region page.ResourceTagMappingList resources with
  | none => none
  | some resources1 => some (resources1, !lastPage)

/-- Lines 132-136: the final check and the return. -/
def getResourcesReturn (resources : List TaggedResource)
    (shouldHaveDiscoveredResources : Bool) (calls : List Stage) : GetResourcesReturn :=
  if shouldHaveDiscoveredResources && resources.length == 0 then
    ⟨[], some ErrExpectedToFindResources, calls⟩
  else
    ⟨resources, none, calls⟩

/-- Lines 122-130: the `FilterFunc` hook of a registered entry. -/
def getResourcesFilter (svc : ServiceConfig) (ext : ServiceFilter)
    (resources : List TaggedResource) (shouldHaveDiscoveredResources : Bool)
    (calls : List Stage) : GetResourcesReturn :=
  match ext.FilterFunc with
  | none => getResourcesReturn resources shouldHaveDiscoveredResources calls
  | some filterFunc =>
    match filterFunc resources with
    | (_, some err) =>
      ⟨[], some (GoError.errorf
        ("failed to apply FilterFunc for " ++ svc.Namespace ++ ", " ++ err.Error) err),
        calls ++ [Stage.filterFunc]⟩
    | (filteredResources, none) =>
      getResourcesReturn filteredResources shouldHaveDiscoveredResources
        (calls ++ [Stage.filterFunc])

/-- Lines 111-136: the registry lookup and the two hooks. -/
def getResourcesExtensions (c : Client) (svc : ServiceConfig) (job : Job) (region : String)
    (resources : List TaggedResource) (shouldHaveDiscoveredResources : Bool)
    (calls : List Stage) : GetResourcesReturn :=
  match c.serviceFilters svc.Namespace with
  | none => getResourcesReturn resources shouldHaveDiscoveredResources calls
  | some ext =>
    match ext.ResourceFunc with
    | none => getResourcesFilter svc ext resources shouldHaveDiscoveredResources calls
    | some resourceFunc =>
      match resourceFunc job region with
      | (_, some err) =>
        ⟨[], some (GoError.errorf
          ("failed to apply ResourceFunc for " ++ svc.Namespace ++ ", " ++ err.Error) err),
          calls ++ [Stage.resourceFunc]⟩
      | (newResources, none) =>
        getResourcesFilter svc ext (resources ++ newResources) true
          (calls ++ [Stage.resourceFunc])

/-- The method `client.GetResources` (lines 67-137). -/
def GetResources (c : Client) (job : Job) (region : String) : Option GetResourcesReturn :=
  match c.GetService job.Type_ with
  | none => none
  | some svc =>
    if svc.ResourceFilters.length > 0 then
      let inputparams : GetResourcesInput := ⟨svc.ResourceFilters, 100⟩
      let response := c.GetResourcesPagesWithContext inputparams
      match eachPage (getResourcesPage c job region) response.pages response.err [] with
      | none => none
      | some (_, some err) => some ⟨[], some err, [Stage.discovery]⟩
      | some (resources, none) =>
        some (getResourcesExtensions c svc job region resources true [Stage.discovery])
    else
      some (getResourcesExtensions c svc job region [] false [])

/-! ### The vocabulary of the specification -/

/-- One provider tag decoded to a `model.Tag`; a tag that is nil or lacks its
key or its value cannot be decoded. -/
def decodeTag : Option AwsTag → Option Tag
  | some ⟨some k, some v⟩ => some ⟨k, v⟩
  | _ => none

/-- One tagging-API entry decoded to a `TaggedResource`: its ARN (empty when
absent), the job type as namespace, the region, and its tags in their original
order. -/
def decodeMapping (job : Job) (region : String) : Option ResourceTagMapping → Option TaggedResource
  | none => none
  | some m =>
    match collect decodeTag m.Tags with
    | none => none
    | some tags => some ⟨m.ResourceARN.getD "", job.Type_, region, tags⟩

/-- The paged response of the tagging API to the request of `GetResources`. -/
def discoveryResponse (c : Client) (svc : ServiceConfig) : PagedResponse GetResourcesOutput :=
  c.GetResourcesPagesWithContext ⟨svc.ResourceFilters, 100⟩

/-- The entries the tagging API yields, in page order and then in-page order. -/
def discoveryEntries (c : Client) (svc : ServiceConfig) : List (Option ResourceTagMapping) :=
  (deliveredPages (discoveryResponse c svc).pages).flatMap (fun page => page.ResourceTagMappingList)

/-- The set G of generic discovery: empty when the service declares no
resource-type filter, otherwise the decoded entries that pass
`FilterThroughTags`; `none` when some entry cannot be decoded. -/
def genericResources (c : Client) (svc : ServiceConfig) (job : Job) (region : String) :
    Option (List TaggedResource) :=
  if svc.ResourceFilters = [] then some []
  else
    match collect (decodeMapping job region) (discoveryEntries c svc) with
    | none => none
    | some decoded => some (decoded.filter (fun r => c.FilterThroughTags r job.SearchTags))

/-- The error of generic discovery: none when the service declares no
resource-type filter, otherwise the error of the paged call. -/
def discoveryError (c : Client) (svc : ServiceConfig) : Option ProviderError :=
  if svc.ResourceFilters = [] then none
  else pagingError (discoveryResponse c svc).pages (discoveryResponse c svc).err

/-- The `ResourceFunc` registered for the namespace of the service, if any. -/
def registeredResourceFunc (c : Client) (svc : ServiceConfig) :
    Option (Job → String → List TaggedResource × Option GoError) :=
  match c.serviceFilters svc.Namespace with
  | none => none
  | some ext => ext.ResourceFunc

/-- The `FilterFunc` registered for the namespace of the service, if any. -/
def registeredFilterFunc (c : Client) (svc : ServiceConfig) :
    Option (List TaggedResource → List TaggedResource × Option GoError) :=
  match c.serviceFilters svc.Namespace with
  | none => none
  | some ext => ext.FilterFunc

/-- What the registered `ResourceFunc` returns; nothing and no error when none
is registered. -/
def hookResources (c : Client) (svc : ServiceConfig) (job : Job) (region : String) :
    List TaggedResource × Option GoError :=
  match registeredResourceFunc c svc with
  | none => ([], none)
  | some resourceFunc => resourceFunc job region

/-- What the registered `FilterFunc` returns on a set; the set itself and no
error when none is registered. -/
def hookFilter (c : Client) (svc : ServiceConfig) (resources : List TaggedResource) :
    List TaggedResource × Option GoError :=
  match registeredFilterFunc c svc with
  | none => (resources, none)
  | some filterFunc => filterFunc resources

/-- Discovery is expected to find something: the service declares a
resource-type filter or a `ResourceFunc` is registered for its namespace. -/
def discoveryExpected (c : Client) (svc : ServiceConfig) : Bool :=
  !svc.ResourceFilters.isEmpty || (registeredResourceFunc c svc).isSome

/-- The collaborator calls of a run in which no stage fails. -/
def allCalls (c : Client) (svc : ServiceConfig) : List Stage :=
  (if svc.ResourceFilters = [] then [] else [Stage.discovery]) ++
  (if (registeredResourceFunc c svc).isSome then [Stage.resourceFunc] else []) ++
  (if (registeredFilterFunc c svc).isSome then [Stage.filterFunc] else [])

/-- The error `err` wraps `cause`, and its text names the failing stage and the
namespace. -/
def WrapsWithStageAndNamespace (err cause : GoError) (stage ns : String) : Prop :=
  err.Unwrap = some cause ∧ stage.toList <:+: err.Error.toList ∧
    ns.toList <:+: err.Error.toList

/-! ### Concrete clients -/

/-- Modelled from the spec: `model.TaggedResource.FilterThroughTags` is declared
outside the sources at hand.  Inclusion semantics: every required key/value pair
must be matched by a tag of the resource, and the empty filter matches
everything.  Values are compared literally. -/
def filterThroughTags (r : TaggedResource) (searchTags : List SearchTag) : Bool :=
  searchTags.all (fun st => r.Tags.any (fun t => t.Key == st.Key && t.Value == st.Value))

/-- A provider entry with the given ARN and tags, all pointers set. -/
def mapping (arn : String) (tags : List (String × String)) : Option ResourceTagMapping :=
  some ⟨some arn, tags.map (fun kv => some ⟨some kv.1, some kv.2⟩)⟩

/-- A service with one resource-type filter. -/
def ec2Service : ServiceConfig := ⟨"AWS/EC2", ["ec2:instance"]⟩

/-- A job for `ec2Service` that requires the tag `env=prod`. -/
def prodJob : Job := ⟨"AWS/EC2", [⟨"env", "prod"⟩]⟩

/-- The lookup `GetService` of a configuration that only knows `ec2Service`. -/
def ec2Only (serviceType : String) : Option ServiceConfig :=
  if serviceType = "AWS/EC2" then some ec2Service else none

/-- Two pages: the first holds a matching and a non-matching entry, the second,
reported as the last, a matching entry. -/
def twoPages : PagedResponse GetResourcesOutput :=
  ⟨[(⟨[mapping "arn:a1" [("env", "prod")], mapping "arn:a2" [("env", "dev")]]⟩, false),
    (⟨[mapping "arn:a3" [("env", "prod"), ("tier", "web")]]⟩, true)], none⟩

/-- A client whose namespace has both hooks: the `ResourceFunc` finds one more
resource and the `FilterFunc` drops the resource `arn:a3`. -/
def hookedClient : Client :=
  ⟨ec2Only,
   fun ns => if ns = "AWS/EC2" then
     some ⟨some (fun job region => ([⟨"arn:a4", job.Type_, region, []⟩], none)),
           some (fun rs => (rs.filter (fun r => r.ARN != "arn:a3"), none))⟩ else none,
   filterThroughTags,
   fun _ => twoPages⟩

/-- One page that is not the last, then the provider fails. -/
def throttledPages : PagedResponse GetResourcesOutput :=
  ⟨[(⟨[mapping "arn:a1" [("env", "prod")]]⟩, false)], some ⟨"Throttling", "rate exceeded"⟩⟩

/-- A client without hooks whose tagging API fails after a first page. -/
def throttledClient : Client :=
  ⟨ec2Only, fun _ => none, filterThroughTags, fun _ => throttledPages⟩

/-- A single page without entries, reported as the last. -/
def emptyPage : PagedResponse GetResourcesOutput := ⟨[(⟨[]⟩, true)], none⟩

/-- A client without hooks whose tagging API yields no entry. -/
def emptyClient : Client :=
  ⟨ec2Only, fun _ => none, filterThroughTags, fun _ => emptyPage⟩

/-- A client whose tagging API yields no entry while the `ResourceFunc` of the
namespace finds one resource. -/
def emptyPageHookClient : Client :=
  ⟨ec2Only,
   fun ns => if ns = "AWS/EC2" then
     some ⟨some (fun job region => ([⟨"arn:a4", job.Type_, region, []⟩], none)), none⟩
   else none,
   filterThroughTags,
   fun _ => emptyPage⟩

/-- A client whose `ResourceFunc` fails after generic discovery found a
resource. -/
def failingResourceFuncClient : Client :=
  ⟨ec2Only,
   fun ns => if ns = "AWS/EC2" then
     some ⟨some (fun _ _ => ([], some (GoError.new "autoscaling unavailable"))),
           some (fun rs => (rs, none))⟩
   else none,
   filterThroughTags,
   fun _ => twoPages⟩

/-- A client whose `FilterFunc` fails after both earlier strategies found
resources. -/
def failingFilterFuncClient : Client :=
  ⟨ec2Only,
   fun ns => if ns = "AWS/EC2" then
     some ⟨some (fun job region => ([⟨"arn:a4", job.Type_, region, []⟩], none)),
           some (fun rs => (rs, some (GoError.new "describe failed")))⟩
   else none,
   filterThroughTags,
   fun _ => twoPages⟩

end Tagging

/-! ## Metric client (`pkg/clients/cloudwatch/v1/client.go`) -/

namespace Cloudwatch

/-- A `float64`, given by its IEEE 754 bit pattern.  The client only copies such
values. -/
structure Float64 where
  bits : Nat
deriving DecidableEq, Repr

/-- A `time.Time`, given by its fields `wall` and `ext`; the location is left
out. -/
structure Time where
  wall : Nat
  ext : Int
deriving DecidableEq, Repr

/-- The zero value `time.Time{}`, the timestamp of a result that was never set. -/
def Time.zero : Time := ⟨0, 0⟩

/-- The type `model.Dimension`. -/
structure Dimension where
  Name : String
  Value : String
deriving DecidableEq, Repr

/-- The type `model.Metric`. -/
structure Metric where
  MetricName : String
  Namespace : String
  Dimensions : List Dimension
deriving DecidableEq, Repr

/-- The field of `model.MetricConfig` read by `ListMetrics`. -/
structure MetricConfig where
  Name : String
deriving DecidableEq, Repr

/-- The type `model.GetMetricDataProcessingParams`. -/
structure GetMetricDataProcessingParams where
  Period : Int
  Statistic : String
  QueryID : String
deriving DecidableEq, Repr

/-- The fields of `model.CloudwatchData` read by `GetMetricData`. -/
structure CloudwatchData where
  MetricName : String
  Dimensions : List Dimension
  GetMetricDataProcessingParams : GetMetricDataProcessingParams
deriving DecidableEq, Repr

/-- The type `cloudwatch.Dimension`. -/
structure CwDimension where
  Name : Option String
  Value : Option String
deriving DecidableEq, Repr

/-- The type `cloudwatch.Metric`. -/
structure CwMetric where
  MetricName : Option String
  Namespace : Option String
  Dimensions : List (Option CwDimension)
deriving DecidableEq, Repr

/-- The type `cloudwatch.ListMetricsInput`, as filled in by the client. -/
structure ListMetricsInput where
  MetricName : String
  Namespace : String
  RecentlyActive : Option String
deriving DecidableEq, Repr

/-- The type `cloudwatch.ListMetricsOutput`. -/
structure ListMetricsOutput where
  Metrics : List (Option CwMetric)
deriving DecidableEq, Repr

/-- The type `cloudwatch.MetricStat`, as filled in by the client. -/
structure MetricStat where
  Metric : CwMetric
  Period : Int
  Stat : String
deriving DecidableEq, Repr

/-- The type `cloudwatch.MetricDataQuery`, as filled in by the client. -/
structure MetricDataQuery where
  Id : String
  MetricStat : MetricStat
  ReturnData : Bool
deriving DecidableEq, Repr

/-- The type `cloudwatch.GetMetricDataInput`, as filled in by the client. -/
structure GetMetricDataInput where
  EndTime : Time
  StartTime : Time
  MetricDataQueries : List MetricDataQuery
  ScanBy : String
deriving DecidableEq, Repr

/-- The type `cloudwatch.MetricDataResult`. -/
structure CwMetricDataResult where
  Id : Option String
  Values : List (Option Float64)
  Timestamps : List (Option Time)
deriving DecidableEq, Repr

/-- The type `cloudwatch.GetMetricDataOutput`. -/
structure GetMetricDataOutput where
  MetricDataResults : List (Option CwMetricDataResult)
deriving DecidableEq, Repr

/-- The type `cloudwatch_client.MetricDataResult`; a nil `Datapoint` marks that
no datapoint was found. -/
structure MetricDataResult where
  ID : String
  Datapoint : Option Float64
  Timestamp : Time
deriving DecidableEq, Repr

/-- The collaborators of the metric client that are declared outside
`client.go`: the helper `toCloudWatchDimensions` and the monitoring provider. -/
structure Client where
  toCloudWatchDimensions : List Dimension → List (Option CwDimension)
  ListMetricsPagesWithContext : ListMetricsInput → PagedResponse ListMetricsOutput
  GetMetricDataPagesWithContext : GetMetricDataInput → PagedResponse GetMetricDataOutput

/-- Lines 86-92: the loop of `toModelDimensions`. -/
def appendModelDimensions : List (Option CwDimension) → List Dimension → Option (List Dimension)
  | [], modelDimensions => some modelDimensions
  | none :: _, _ => none
  | some dimension :: rest, modelDimensions =>
    match dimension.Name, dimension.Value with
    | some name, some value => appendModelDimensions rest (modelDimensions ++ [⟨name, value⟩])
    | _, _ => none

/-- The function `toModelDimensions` (lines 84-94). -/
def toModelDimensions (dimensions : List (Option CwDimension)) : Option (List Dimension) :=
  appendModelDimensions dimensions []

/-- Lines 73-80: the loop of `toModelMetric`. -/
def appendModelMetrics : List (Option CwMetric) → List Metric → Option (List Metric)
  | [], modelMetrics => some modelMetrics
  | none :: _, _ => none
  | some cloudwatchMetric :: rest, modelMetrics =>
    match cloudwatchMetric.MetricName, cloudwatchMetric.Namespace,
        toModelDimensions cloudwatchMetric.Dimensions with
    | some name, some ns, some dimensions =>
      appendModelMetrics rest (modelMetrics ++ [⟨name, ns, dimensions⟩])
    | _, _, _ => none

/-- The function `toModelMetric` (lines 71-82). -/
def toModelMetric (page : ListMetricsOutput) : Option (List Metric) :=
  appendModelMetrics page.Metrics []

/-- Lines 42-48: the request of `ListMetrics`. -/
def listMetricsInput (namespace_ : String) (metric : MetricConfig)
    (recentlyActiveOnly : Bool) : ListMetricsInput :=
  ⟨metric.Name, namespace_, if recentlyActiveOnly then some "PT3H" else none⟩

/-- Lines 52-61: the page handler of `ListMetrics`; its state is the state of
the callback `fn`. -/
def listMetricsPage {σ : Type} (fn : σ → List Metric → σ) (s : σ)
    (page : ListMetricsOutput) (lastPage : Bool) : Option (σ × Bool) :=
  match toModelMetric page with
  | none => none
  | some metricsPage => some (fn s metricsPage, !lastPage)

/-- The method `client.ListMetrics` (lines 41-69).  The callback `fn` acts on a
state `σ`; the result is the state the callback is left in and the returned
error. -/
def ListMetrics {σ : Type} (c : Client) (namespace_ : String) (metric : MetricConfig)
    (recentlyActiveOnly : Bool) (fn : σ → List Metric → σ) (s : σ) :
    Option (σ × Option GoError) :=
  let filter := listMetricsInput namespace_ metric recentlyActiveOnly
  let response := c.ListMetricsPagesWithContext filter
  match eachPage (listMetricsPage fn) response.pages response.err s with
  | none => none
  | some (s1, some err) => some (s1, some err)
  | some (s1, none) => some (s1, none)

/-- Lines 97-119: the request of `GetMetricData`. -/
def getMetricDataInput (c : Client) (getMetricData : List CloudwatchData)
    (namespace_ : String) (startTime endTime : Time) : GetMetricDataInput :=
  let metricDataQueries : List MetricDataQuery :=
    getMetricData.foldl (fun queries data =>
      queries ++ [⟨data.GetMetricDataProcessingParams.QueryID,
        ⟨⟨some data.MetricName, some namespace_, c.toCloudWatchDimensions data.Dimensions⟩,
          data.GetMetricDataProcessingParams.Period,
          data.GetMetricDataProcessingParams.Statistic⟩,
        true⟩]) []
  ⟨endTime, startTime, metricDataQueries, "TimestampDescending"⟩

/-- Lines 126-131: the page handler of `GetMetricData`; its state is
`resp.MetricDataResults`. -/
def getMetricDataPage (results : List (Option CwMetricDataResult))
    (page : GetMetricDataOutput) (lastPage : Bool) :
    Option (List (Option CwMetricDataResult) × Bool) :=
  some (results ++ page.MetricDataResults, !lastPage)

/-- Lines 145-152: the loop of `toMetricDataResult`. -/
def appendMetricDataResults :
    List (Option CwMetricDataResult) → List MetricDataResult → Option (List MetricDataResult)
  | [], output => some output
  | none :: _, _ => none
  | some metricDataResult :: rest, output =>
    match metricDataResult.Id with
    | none => none
    | some id =>
      if metricDataResult.Values.length > 0 then
        match metricDataResult.Values[0]?, metricDataResult.Timestamps[0]? with
        | some value, some (some timestamp) =>
          appendMetricDataResults rest (output ++ [⟨id, value, timestamp⟩])
        | _, _ => none
      else
        appendMetricDataResults rest (output ++ [⟨id, none, Time.zero⟩])

/-- The function `toMetricDataResult` (lines 143-154). -/
def toMetricDataResult (resp : GetMetricDataOutput) : Option (List MetricDataResult) :=
  appendMetricDataResults resp.MetricDataResults []

/-- The method `client.GetMetricData` (lines 96-141). -/
def GetMetricData (c : Client) (getMetricData : List CloudwatchData) (namespace_ : String)
    (startTime endTime : Time) : Option (List MetricDataResult) :=
  let input := getMetricDataInput c getMetricData namespace_ startTime endTime
  let response := c.GetMetricDataPagesWithContext input
  match eachPage getMetricDataPage response.pages response.err [] with
  | none => none
  | some (_, some _) => some []
  | some (results, none) => toMetricDataResult ⟨results⟩

/-! ### The vocabulary of the specification -/

/-- One provider dimension decoded; a dimension that is nil or lacks its name or
its value cannot be decoded. -/
def decodeDimension : Option CwDimension → Option Dimension
  | some ⟨some name, some value⟩ => some ⟨name, value⟩
  | _ => none

/-- One provider metric decoded: its name, its namespace and its dimensions in
order. -/
def decodeMetric : Option CwMetric → Option Metric
  | some ⟨some name, some ns, dimensions⟩ =>
    match collect decodeDimension dimensions with
    | none => none
    | some ds => some ⟨name, ns, ds⟩
  | _ => none

/-- One page of metrics decoded, in order. -/
def decodePage (page : ListMetricsOutput) : Option (List Metric) :=
  collect decodeMetric page.Metrics

/-- The mapped result `m` stands for the provider result `r`: same id; without
values both datapoint and timestamp are unset; with values the datapoint is the
first value and the timestamp the first timestamp. -/
def MapsTo (r : Option CwMetricDataResult) (m : MetricDataResult) : Prop :=
  ∃ x, r = some x ∧ x.Id = some m.ID ∧
    (x.Values = [] → m.Datapoint = none ∧ m.Timestamp = Time.zero) ∧
    (∀ v vs, x.Values = v :: vs →
      m.Datapoint = v ∧ ∃ ts, x.Timestamps = some m.Timestamp :: ts)

/-- The provider result carries an id and, when it has a value, a first
timestamp. -/
def WellFormedResult (r : Option CwMetricDataResult) : Prop :=
  ∃ x id, r = some x ∧ x.Id = some id ∧
    (x.Values ≠ [] → ∃ t ts, x.Timestamps = some t :: ts)

/-! ### Concrete providers -/

/-- The value 10.0. -/
def ten : Float64 := ⟨0x4024000000000000⟩

/-- The value 9.0. -/
def nine : Float64 := ⟨0x4022000000000000⟩

/-- The earlier timestamp T1. -/
def t1 : Time := ⟨0, 1700000000⟩

/-- The later timestamp T2. -/
def t2 : Time := ⟨0, 1700000300⟩

/-- A response with values for `q1`, most recent first, and none for `q2`. -/
def sampleOutput : GetMetricDataOutput :=
  ⟨[some ⟨some "q1", [some ten, some nine], [some t2, some t1]⟩, some ⟨some "q2", [], []⟩]⟩

/-- A monitoring provider that delivers one page of metric data that is not the
last and then fails, and three pages of metrics. -/
def sampleClient : Client :=
  ⟨fun ds => ds.map (fun d => some ⟨some d.Name, some d.Value⟩),
   fun _ =>
     ⟨[(⟨[some ⟨some "CPUUtilization", some "AWS/EC2", [some ⟨some "InstanceId", some "i-1"⟩]⟩,
          some ⟨some "CPUUtilization", some "AWS/EC2", [some ⟨some "InstanceId", some "i-2"⟩]⟩]⟩,
        false),
       (⟨[]⟩, false),
       (⟨[some ⟨some "CPUUtilization", some "AWS/EC2", []⟩]⟩, true)], none⟩,
   fun _ => ⟨[(sampleOutput, false)], some ⟨"InternalServiceFault", "try again"⟩⟩⟩

/-- One query. -/
def sampleQuery : CloudwatchData :=
  ⟨"CPUUtilization", [⟨"InstanceId", "i-1"⟩], ⟨300, "Average", "q1"⟩⟩

end Cloudwatch

end Yace

/-! # Theorems -/

namespace Yace

theorem collect_append {α β : Type} (f : α → Option β) (xs ys : List α) :
    collect f (xs ++ ys) =
      match collect f xs, collect f ys with
      | some a, some b => some (a ++ b)
      | _, _ => none := by
  induction xs with
  | nil => simp [collect]; cases collect f ys <;> rfl
  | cons x xs ih =>
    have h : collect f (x :: xs ++ ys) =
        match f x, collect f (xs ++ ys) with
        | some b, some bs => some (b :: bs)
        | _, _ => none := rfl
    rw [h, ih]
    simp only [collect]
    cases f x <;> cases collect f xs <;> cases collect f ys <;> rfl

namespace Tagging

theorem appendTags_eq (ts : List (Option AwsTag)) (acc : List Tag) :
    appendTags ts acc =
      match collect decodeTag ts with
      | none => none
      | some tags => some (acc ++ tags) := by
  induction ts generalizing acc with
  | nil => simp [appendTags, collect]
  | cons t ts ih =>
    rcases t with _ | ⟨_ | k, _ | v⟩ <;> simp [appendTags, collect, decodeTag, ih]
    cases collect decodeTag ts <;> simp

theorem appendMappings_eq (c : Client) (job : Job) (region : String)
    (ms : List (Option ResourceTagMapping)) (acc : List TaggedResource) :
    appendMappings c job region ms acc =
      match collect (decodeMapping job region) ms with
      | none => none
      | some rs => some (acc ++ rs.filter (fun r => c.FilterThroughTags r job.SearchTags)) := by
  induction ms generalizing acc with
  | nil => simp [appendMappings, collect]
  | cons m ms ih =>
    rcases m with _ | m
    · simp [appendMappings, collect, decodeMapping]
    · simp only [appendMappings, collect, decodeMapping, appendTags_eq, List.nil_append]
      cases collect decodeTag m.Tags with
      | none => simp
      | some tags =>
        simp only []
        split <;> rename_i hk <;> simp only [ih] <;>
          cases collect (decodeMapping job region) ms <;> simp [List.filter_cons, hk]

theorem eachPage_getResourcesPage (c : Client) (job : Job) (region : String)
    (pages : List (GetResourcesOutput × Bool)) (err : Option ProviderError)
    (acc : List TaggedResource) :
    eachPage (getResourcesPage c job region) pages err acc =
      match collect (decodeMapping job region)
          ((deliveredPages pages).flatMap (fun page => page.ResourceTagMappingList)) with
      | none => none
      | some rs =>
        some (acc ++ rs.filter (fun r => c.FilterThroughTags r job.SearchTags),
          (pagingError pages err).map GoError.provider) := by
  induction pages generalizing acc with
  | nil => simp [eachPage, deliveredPages, pagingError, collect]
  | cons p pages ih =>
    obtain ⟨page, lastPage⟩ := p
    simp only [eachPage, getResourcesPage, appendMappings_eq, deliveredPages, pagingError,
      List.flatMap_cons, collect_append]
    cases h1 : collect (decodeMapping job region) page.ResourceTagMappingList with
    | none => simp
    | some rs1 =>
      cases lastPage with
      | true => simp [collect]
      | false =>
        simp only [Bool.not_false, ih, Bool.false_eq_true, if_false]
        cases collect (decodeMapping job region)
          ((deliveredPages pages).flatMap (fun page => page.ResourceTagMappingList)) <;>
          simp [List.filter_append]

theorem getResourcesExtensions_eq (c : Client) (svc : ServiceConfig) (job : Job)
    (region : String) (G : List TaggedResource) (should : Bool) (calls : List Stage) :
    getResourcesExtensions c svc job region G should calls =
      match hookResources c svc job region with
      | (_, some e) =>
        ⟨[], some (GoError.errorf
          ("failed to apply ResourceFunc for " ++ svc.Namespace ++ ", " ++ e.Error) e),
          calls ++ [Stage.resourceFunc]⟩
      | (R, none) =>
        match hookFilter c svc (G ++ R) with
        | (_, some e) =>
          ⟨[], some (GoError.errorf
            ("failed to apply FilterFunc for " ++ svc.Namespace ++ ", " ++ e.Error) e),
            calls ++ (if (registeredResourceFunc c svc).isSome then [Stage.resourceFunc] else [])
              ++ [Stage.filterFunc]⟩
        | (res, none) =>
          getResourcesReturn res (should || (registeredResourceFunc c svc).isSome)
            (calls ++ (if (registeredResourceFunc c svc).isSome then [Stage.resourceFunc] else [])
              ++ (if (registeredFilterFunc c svc).isSome then [Stage.filterFunc] else [])) := by
  unfold getResourcesExtensions hookResources hookFilter registeredResourceFunc
    registeredFilterFunc
  cases h1 : c.serviceFilters svc.Namespace with
  | none => simp
  | some ext =>
    obtain ⟨rf, ff⟩ := ext
    cases rf with
    | none =>
      cases ff with
      | none => simp [getResourcesFilter]
      | some g =>
        simp only [getResourcesFilter, List.append_nil, Option.isSome_none, Bool.or_false,
          Bool.false_eq_true, if_false, Option.isSome_some, if_true]
    | some f =>
      simp only []
      rcases hf : f job region with ⟨R, _ | e⟩
      · cases ff with
        | none => simp [getResourcesFilter]
        | some g =>
          simp only [getResourcesFilter, Option.isSome_some, Bool.or_true, if_true]
      · simp

theorem GetResources_eq (c : Client) (job : Job) (region : String) :
    GetResources c job region =
      match c.GetService job.Type_ with
      | none => none
      | some svc =>
        match genericResources c svc job region with
        | none => none
        | some G =>
          match discoveryError c svc with
          | some e => some ⟨[], some (GoError.provider e), [Stage.discovery]⟩
          | none =>
            some (getResourcesExtensions c svc job region G (!svc.ResourceFilters.isEmpty)
              (if svc.ResourceFilters = [] then [] else [Stage.discovery])) := by
  unfold GetResources
  cases c.GetService job.Type_ with
  | none => rfl
  | some svc =>
    simp only [genericResources, discoveryError, discoveryEntries, discoveryResponse]
    rcases hf : svc.ResourceFilters with _ | ⟨a, l⟩
    · simp
    · simp only [List.length_cons, gt_iff_lt, Nat.zero_lt_succ, if_true, reduceCtorEq, if_false,
        eachPage_getResourcesPage, List.nil_append, List.isEmpty_cons, Bool.not_false]
      cases collect (decodeMapping job region)
        ((deliveredPages (c.GetResourcesPagesWithContext ⟨a :: l, 100⟩).pages).flatMap
          (fun page => page.ResourceTagMappingList)) with
      | none => rfl
      | some rs =>
        simp only []
        cases pagingError (c.GetResourcesPagesWithContext ⟨a :: l, 100⟩).pages
          (c.GetResourcesPagesWithContext ⟨a :: l, 100⟩).err <;> rfl

theorem GetResources_stages (c : Client) (job : Job) (region : String) (svc : ServiceConfig)
    (G : List TaggedResource) (hsvc : c.GetService job.Type_ = some svc)
    (hG : genericResources c svc job region = some G) :
    GetResources c job region = some (
      match discoveryError c svc with
      | some e => ⟨[], some (GoError.provider e), [Stage.discovery]⟩
      | none =>
        match hookResources c svc job region with
        | (_, some e) =>
          ⟨[], some (GoError.errorf
            ("failed to apply ResourceFunc for " ++ svc.Namespace ++ ", " ++ e.Error) e),
            (if svc.ResourceFilters = [] then [] else [Stage.discovery])
              ++ [Stage.resourceFunc]⟩
        | (R, none) =>
          match hookFilter c svc (G ++ R) with
          | (_, some e) =>
            ⟨[], some (GoError.errorf
              ("failed to apply FilterFunc for " ++ svc.Namespace ++ ", " ++ e.Error) e),
              (if svc.ResourceFilters = [] then [] else [Stage.discovery])
                ++ (if (registeredResourceFunc c svc).isSome then [Stage.resourceFunc] else [])
                ++ [Stage.filterFunc]⟩
          | (res, none) => getResourcesReturn res (discoveryExpected c svc) (allCalls c svc)) := by
  rw [GetResources_eq]
  simp only [hsvc, hG]
  cases discoveryError c svc with
  | some e => rfl
  | none =>
    simp only [getResourcesExtensions_eq]
    rfl

theorem GetResources_eq_none_of_service (c : Client) (job : Job) (region : String)
    (hsvc : c.GetService job.Type_ = none) : GetResources c job region = none := by
  rw [GetResources_eq]; simp only [hsvc]

theorem GetResources_eq_none_of_generic (c : Client) (job : Job) (region : String)
    (svc : ServiceConfig) (hsvc : c.GetService job.Type_ = some svc)
    (hG : genericResources c svc job region = none) : GetResources c job region = none := by
  rw [GetResources_eq]; simp only [hsvc, hG]

theorem getResourcesReturn_err_none (res : List TaggedResource) (should : Bool)
    (calls : List Stage) :
    (getResourcesReturn res should calls).err = none ↔ ¬ (should = true ∧ res = []) := by
  unfold getResourcesReturn
  cases res <;> cases should <;> simp

theorem getResourcesReturn_of_ok (res : List TaggedResource) (should : Bool)
    (calls : List Stage) (h : ¬ (should = true ∧ res = [])) :
    getResourcesReturn res should calls = ⟨res, none, calls⟩ := by
  unfold getResourcesReturn
  cases res <;> cases should <;> simp_all

theorem getResourcesReturn_of_empty (should : Bool) (calls : List Stage) (h : should = true) :
    getResourcesReturn [] should calls = ⟨[], some ErrExpectedToFindResources, calls⟩ := by
  subst h; rfl

theorem GetResources_ok_iff (c : Client) (job : Job)
    (region : String) (out : GetResourcesReturn) :
    (GetResources c job region = some out ∧ out.err = none) ↔
      ∃ svc G, c.GetService job.Type_ = some svc ∧
        genericResources c svc job region = some G ∧
        discoveryError c svc = none ∧
        (hookResources c svc job region).2 = none ∧
        (hookFilter c svc (G ++ (hookResources c svc job region).1)).2 = none ∧
        ¬ (discoveryExpected c svc = true ∧
            (hookFilter c svc (G ++ (hookResources c svc job region).1)).1 = []) ∧
        out = ⟨(hookFilter c svc (G ++ (hookResources c svc job region).1)).1, none,
                allCalls c svc⟩ := by
  constructor
  · rintro ⟨hret, hok⟩
    cases hsvc : c.GetService job.Type_ with
    | none => rw [GetResources_eq_none_of_service c job region hsvc] at hret; cases hret
    | some svc =>
      cases hG : genericResources c svc job region with
      | none => rw [GetResources_eq_none_of_generic c job region svc hsvc hG] at hret; cases hret
      | some G =>
        rw [GetResources_stages c job region svc G hsvc hG] at hret
        refine ⟨svc, G, rfl, hG, ?_⟩
        cases hd : discoveryError c svc with
        | some e => simp only [hd] at hret; cases hret; cases hok
        | none =>
          rcases hR : hookResources c svc job region with ⟨R, _ | e⟩
          · rcases hF : hookFilter c svc (G ++ R) with ⟨res, _ | e⟩
            · simp only [hd, hR, hF, Option.some.injEq] at hret
              subst hret
              rw [getResourcesReturn_err_none] at hok
              exact ⟨rfl, rfl, rfl, hok, getResourcesReturn_of_ok _ _ _ hok⟩
            · simp only [hd, hR, hF, Option.some.injEq] at hret
              subst hret; cases hok
          · simp only [hd, hR, Option.some.injEq] at hret
            subst hret; cases hok
  · rintro ⟨svc, G, hsvc, hG, hd, hR, hF, hpost, rfl⟩
    refine ⟨?_, rfl⟩
    rw [GetResources_stages c job region svc G hsvc hG]
    rcases hR1 : hookResources c svc job region with ⟨R, eR⟩
    rw [hR1] at hR hF hpost
    simp only at hR hF hpost
    subst hR
    rcases hF1 : hookFilter c svc (G ++ R) with ⟨res, eF⟩
    rw [hF1] at hF hpost
    simp only at hF hpost
    subst hF
    simp only [hd, hR1, hF1, getResourcesReturn_of_ok _ _ _ hpost]

/-- C1. `GetResources` returns a list and a nil error exactly when the service is
known, every yielded entry can be decoded, no stage fails and the final check
passes; the list it then returns is `F (G ++ R)`: the `FilterFunc` of the
namespace (the identity when none is registered) applied to the generic set `G`
(the decoded tagging-API entries passing `FilterThroughTags`, in page order and
in-page order, empty without resource-type filters) followed by the output `R`
of the `ResourceFunc` of the namespace (empty when none is registered).  Nothing
is deduplicated or reordered. -/
theorem GetResources_ok_iff_filter_of_generic_append_hook (c : Client) (job : Job)
    (region : String) (out : GetResourcesReturn) :
    (GetResources c job region = some out ∧ out.err = none) ↔
      ∃ svc G, c.GetService job.Type_ = some svc ∧
        genericResources c svc job region = some G ∧
        discoveryError c svc = none ∧
        (hookResources c svc job region).2 = none ∧
        (hookFilter c svc (G ++ (hookResources c svc job region).1)).2 = none ∧
        ¬ (discoveryExpected c svc = true ∧
            (hookFilter c svc (G ++ (hookResources c svc job region).1)).1 = []) ∧
        out = ⟨(hookFilter c svc (G ++ (hookResources c svc job region).1)).1, none,
                allCalls c svc⟩ :=
  GetResources_ok_iff c job region out

/-- Witness of C1: two pages, a search tag, a `ResourceFunc` adding one resource
and a `FilterFunc` dropping one. -/
theorem GetResources_ok_iff_filter_of_generic_append_hook_witness :
    GetResources hookedClient prodJob "eu-west-1" =
        some ⟨[⟨"arn:a1", "AWS/EC2", "eu-west-1", [⟨"env", "prod"⟩]⟩,
               ⟨"arn:a4", "AWS/EC2", "eu-west-1", []⟩], none,
              [Stage.discovery, Stage.resourceFunc, Stage.filterFunc]⟩ ∧
      genericResources hookedClient ec2Service prodJob "eu-west-1" =
        some [⟨"arn:a1", "AWS/EC2", "eu-west-1", [⟨"env", "prod"⟩]⟩,
              ⟨"arn:a3", "AWS/EC2", "eu-west-1", [⟨"env", "prod"⟩, ⟨"tier", "web"⟩]⟩] :=
  ⟨((GetResources_ok_iff_filter_of_generic_append_hook hookedClient prodJob "eu-west-1" _).mpr
      ⟨ec2Service,
        [⟨"arn:a1", "AWS/EC2", "eu-west-1", [⟨"env", "prod"⟩]⟩,
         ⟨"arn:a3", "AWS/EC2", "eu-west-1", [⟨"env", "prod"⟩, ⟨"tier", "web"⟩]⟩],
        by decide, by decide, by decide, by decide, by decide, by decide, by decide⟩).1,
    by decide⟩

theorem GetResources_expected_iff (c : Client) (job : Job) (region : String) :
    (∃ out, GetResources c job region = some out ∧
        out.err = some ErrExpectedToFindResources) ↔
      ∃ svc G, c.GetService job.Type_ = some svc ∧
        genericResources c svc job region = some G ∧
        discoveryError c svc = none ∧
        (hookResources c svc job region).2 = none ∧
        (hookFilter c svc (G ++ (hookResources c svc job region).1)).2 = none ∧
        discoveryExpected c svc = true ∧
        (hookFilter c svc (G ++ (hookResources c svc job region).1)).1 = [] := by
  constructor
  · rintro ⟨out, hret, herr⟩
    cases hsvc : c.GetService job.Type_ with
    | none => rw [GetResources_eq_none_of_service c job region hsvc] at hret; cases hret
    | some svc =>
      cases hG : genericResources c svc job region with
      | none => rw [GetResources_eq_none_of_generic c job region svc hsvc hG] at hret; cases hret
      | some G =>
        rw [GetResources_stages c job region svc G hsvc hG] at hret
        refine ⟨svc, G, rfl, hG, ?_⟩
        cases hd : discoveryError c svc with
        | some e => simp only [hd] at hret; cases hret; cases herr
        | none =>
          rcases hR : hookResources c svc job region with ⟨R, _ | e⟩
          · rcases hF : hookFilter c svc (G ++ R) with ⟨res, _ | e⟩
            · simp only [hd, hR, hF, Option.some.injEq] at hret
              subst hret
              refine ⟨rfl, rfl, rfl, ?_⟩
              by_cases hpost : discoveryExpected c svc = true ∧ res = []
              · exact hpost
              · rw [getResourcesReturn_of_ok _ _ _ hpost] at herr; cases herr
            · simp only [hd, hR, hF, Option.some.injEq] at hret
              subst hret; cases herr
          · simp only [hd, hR, Option.some.injEq] at hret
            subst hret; cases herr
  · rintro ⟨svc, G, hsvc, hG, hd, hR, hF, hexp, hempty⟩
    refine ⟨⟨[], some ErrExpectedToFindResources, allCalls c svc⟩, ?_, rfl⟩
    rw [GetResources_stages c job region svc G hsvc hG]
    rcases hR1 : hookResources c svc job region with ⟨R, eR⟩
    rw [hR1] at hR hF hempty
    simp only at hR hF hempty
    subst hR
    rcases hF1 : hookFilter c svc (G ++ R) with ⟨res, eF⟩
    rw [hF1] at hF hempty
    simp only at hF hempty
    subst hF hempty
    simp only [hd, hR1, hF1, getResourcesReturn_of_empty _ _ hexp]

/-- C2. `GetResources` returns `ErrExpectedToFindResources` exactly when no stage
failed, discovery was expected (the service declares a resource-type filter or a
`ResourceFunc` is registered for the namespace) and the final set is empty.
Hence a job without resource filters and without registered `ResourceFunc` never
gets that error, and a successful return with discovery expected carries a
non-empty set. -/
theorem GetResources_ErrExpectedToFindResources_iff (c : Client) (job : Job)
    (region : String) :
    ((∃ out, GetResources c job region = some out ∧
          out.err = some ErrExpectedToFindResources) ↔
        ∃ svc G, c.GetService job.Type_ = some svc ∧
          genericResources c svc job region = some G ∧
          discoveryError c svc = none ∧
          (hookResources c svc job region).2 = none ∧
          (hookFilter c svc (G ++ (hookResources c svc job region).1)).2 = none ∧
          discoveryExpected c svc = true ∧
          (hookFilter c svc (G ++ (hookResources c svc job region).1)).1 = []) ∧
    (∀ svc out, c.GetService job.Type_ = some svc → svc.ResourceFilters = [] →
        registeredResourceFunc c svc = none → GetResources c job region = some out →
        out.err ≠ some ErrExpectedToFindResources) ∧
    (∀ svc out, c.GetService job.Type_ = some svc → discoveryExpected c svc = true →
        GetResources c job region = some out → out.err = none → out.resources ≠ []) := by
  refine ⟨GetResources_expected_iff c job region, ?_, ?_⟩
  · intro svc out hsvc hfilters hfunc hret herr
    obtain ⟨svc1, G, hsvc1, _, _, _, _, hexp, _⟩ :=
      (GetResources_expected_iff c job region).mp ⟨out, hret, herr⟩
    rw [hsvc] at hsvc1
    cases hsvc1
    simp [discoveryExpected, hfilters, hfunc] at hexp
  · intro svc out hsvc hexp hret hok
    obtain ⟨svc1, G, hsvc1, _, _, _, _, hpost, rfl⟩ :=
      (GetResources_ok_iff c job region out).mp ⟨hret, hok⟩
    rw [hsvc] at hsvc1
    cases hsvc1
    intro hempty
    exact hpost ⟨hexp, hempty⟩

/-- Witness of C2: resource filters are declared, the tagging API yields nothing
and no hook is registered. -/
theorem GetResources_ErrExpectedToFindResources_iff_witness :
    ∃ out, GetResources emptyClient prodJob "eu-west-1" = some out ∧
      out.err = some ErrExpectedToFindResources :=
  (GetResources_ErrExpectedToFindResources_iff emptyClient prodJob "eu-west-1").1.mpr
    ⟨ec2Service, [], by decide, by decide, by decide, by decide, by decide, by decide,
      by decide⟩

theorem GetResources_resources_of_err (c : Client) (job : Job) (region : String)
    (out : GetResourcesReturn) (hret : GetResources c job region = some out)
    (herr : out.err ≠ none) : out.resources = [] := by
  cases hsvc : c.GetService job.Type_ with
  | none => rw [GetResources_eq_none_of_service c job region hsvc] at hret; cases hret
  | some svc =>
    cases hG : genericResources c svc job region with
    | none => rw [GetResources_eq_none_of_generic c job region svc hsvc hG] at hret; cases hret
    | some G =>
      rw [GetResources_stages c job region svc G hsvc hG] at hret
      cases hd : discoveryError c svc with
      | some e => simp only [hd, Option.some.injEq] at hret; subst hret; rfl
      | none =>
        rcases hR : hookResources c svc job region with ⟨R, _ | e⟩
        · rcases hF : hookFilter c svc (G ++ R) with ⟨res, _ | e⟩
          · simp only [hd, hR, hF, Option.some.injEq] at hret
            subst hret
            by_cases hpost : discoveryExpected c svc = true ∧ res = []
            · rw [hpost.2, getResourcesReturn_of_empty _ _ hpost.1]
            · rw [getResourcesReturn_of_ok _ _ _ hpost] at herr; exact absurd rfl herr
          · simp only [hd, hR, hF, Option.some.injEq] at hret
            subst hret; rfl
        · simp only [hd, hR, Option.some.injEq] at hret
          subst hret; rfl

theorem GetResources_of_discovery_error (c : Client) (job : Job) (region : String)
    (svc : ServiceConfig) (G : List TaggedResource) (hsvc : c.GetService job.Type_ = some svc)
    (hG : genericResources c svc job region = some G) (e : ProviderError)
    (hd : discoveryError c svc = some e) :
    GetResources c job region = some ⟨[], some (GoError.provider e), [Stage.discovery]⟩ := by
  rw [GetResources_stages c job region svc G hsvc hG]
  simp only [hd]

theorem GetResources_of_ResourceFunc_error (c : Client) (job : Job) (region : String)
    (svc : ServiceConfig) (G : List TaggedResource) (hsvc : c.GetService job.Type_ = some svc)
    (hG : genericResources c svc job region = some G) (hd : discoveryError c svc = none)
    (e : GoError) (hR : (hookResources c svc job region).2 = some e) :
    GetResources c job region = some ⟨[], some (GoError.errorf
        ("failed to apply ResourceFunc for " ++ svc.Namespace ++ ", " ++ e.Error) e),
      (if svc.ResourceFilters = [] then [] else [Stage.discovery]) ++ [Stage.resourceFunc]⟩ := by
  rw [GetResources_stages c job region svc G hsvc hG]
  rcases hR1 : hookResources c svc job region with ⟨R, eR⟩
  rw [hR1] at hR
  simp only at hR
  subst hR
  simp only [hd, hR1]

theorem GetResources_of_FilterFunc_error (c : Client) (job : Job) (region : String)
    (svc : ServiceConfig) (G : List TaggedResource) (hsvc : c.GetService job.Type_ = some svc)
    (hG : genericResources c svc job region = some G) (hd : discoveryError c svc = none)
    (hR : (hookResources c svc job region).2 = none) (e : GoError)
    (hF : (hookFilter c svc (G ++ (hookResources c svc job region).1)).2 = some e) :
    GetResources c job region = some ⟨[], some (GoError.errorf
        ("failed to apply FilterFunc for " ++ svc.Namespace ++ ", " ++ e.Error) e),
      (if svc.ResourceFilters = [] then [] else [Stage.discovery])
        ++ (if (registeredResourceFunc c svc).isSome then [Stage.resourceFunc] else [])
        ++ [Stage.filterFunc]⟩ := by
  rw [GetResources_stages c job region svc G hsvc hG]
  rcases hR1 : hookResources c svc job region with ⟨R, eR⟩
  rw [hR1] at hR hF
  simp only at hR hF
  subst hR
  rcases hF1 : hookFilter c svc (G ++ R) with ⟨res, eF⟩
  rw [hF1] at hF
  simp only at hF
  subst hF
  simp only [hd, hR1, hF1]

/-- C5. Let the service be known and the yielded entries decode to the generic
set `G`.  When the paged discovery call returns an error, when the registered
`ResourceFunc` returns an error, or when the registered `FilterFunc` returns an
error, `GetResources` returns a non-nil error with the empty list, and the
collaborator calls stop at the failing stage: no hook is called after a failed
discovery and no `FilterFunc` after a failed `ResourceFunc`.  In general a
non-nil error never comes with resources. -/
theorem GetResources_stage_failure_aborts (c : Client) (job : Job) (region : String)
    (svc : ServiceConfig) (G : List TaggedResource)
    (hsvc : c.GetService job.Type_ = some svc)
    (hG : genericResources c svc job region = some G) :
    (∀ e, discoveryError c svc = some e →
      ∃ err, GetResources c job region = some ⟨[], some err, [Stage.discovery]⟩) ∧
    (discoveryError c svc = none → ∀ e, (hookResources c svc job region).2 = some e →
      ∃ err, GetResources c job region = some ⟨[], some err,
        (if svc.ResourceFilters = [] then [] else [Stage.discovery])
          ++ [Stage.resourceFunc]⟩) ∧
    (discoveryError c svc = none → (hookResources c svc job region).2 = none →
      ∀ e, (hookFilter c svc (G ++ (hookResources c svc job region).1)).2 = some e →
      ∃ err, GetResources c job region = some ⟨[], some err,
        (if svc.ResourceFilters = [] then [] else [Stage.discovery])
          ++ (if (registeredResourceFunc c svc).isSome then [Stage.resourceFunc] else [])
          ++ [Stage.filterFunc]⟩) ∧
    (∀ out, GetResources c job region = some out → out.err ≠ none → out.resources = []) :=
  ⟨fun e hd => ⟨_, GetResources_of_discovery_error c job region svc G hsvc hG e hd⟩,
   fun hd e hR => ⟨_, GetResources_of_ResourceFunc_error c job region svc G hsvc hG hd e hR⟩,
   fun hd hR e hF =>
     ⟨_, GetResources_of_FilterFunc_error c job region svc G hsvc hG hd hR e hF⟩,
   fun out hret herr => GetResources_resources_of_err c job region out hret herr⟩

/-- Witness of C5: a provider failure after a page that had already yielded a
resource, a failing `ResourceFunc` and a failing `FilterFunc` after earlier
strategies had found resources. -/
theorem GetResources_stage_failure_aborts_witness :
    (genericResources throttledClient ec2Service prodJob "eu-west-1" =
        some [⟨"arn:a1", "AWS/EC2", "eu-west-1", [⟨"env", "prod"⟩]⟩] ∧
      ∃ err, GetResources throttledClient prodJob "eu-west-1" =
        some ⟨[], some err, [Stage.discovery]⟩) ∧
    (∃ err, GetResources failingResourceFuncClient prodJob "eu-west-1" =
        some ⟨[], some err, [Stage.discovery, Stage.resourceFunc]⟩) ∧
    (∃ err, GetResources failingFilterFuncClient prodJob "eu-west-1" =
        some ⟨[], some err, [Stage.discovery, Stage.resourceFunc, Stage.filterFunc]⟩) :=
  ⟨⟨by decide,
    (GetResources_stage_failure_aborts throttledClient prodJob "eu-west-1" ec2Service
      [⟨"arn:a1", "AWS/EC2", "eu-west-1", [⟨"env", "prod"⟩]⟩] (by decide) (by decide)).1
      ⟨"Throttling", "rate exceeded"⟩ (by decide)⟩,
   (GetResources_stage_failure_aborts failingResourceFuncClient prodJob "eu-west-1" ec2Service
      [⟨"arn:a1", "AWS/EC2", "eu-west-1", [⟨"env", "prod"⟩]⟩,
       ⟨"arn:a3", "AWS/EC2", "eu-west-1", [⟨"env", "prod"⟩, ⟨"tier", "web"⟩]⟩]
      (by decide) (by decide)).2.1 (by decide) (GoError.new "autoscaling unavailable")
      (by decide),
   (GetResources_stage_failure_aborts failingFilterFuncClient prodJob "eu-west-1" ec2Service
      [⟨"arn:a1", "AWS/EC2", "eu-west-1", [⟨"env", "prod"⟩]⟩,
       ⟨"arn:a3", "AWS/EC2", "eu-west-1", [⟨"env", "prod"⟩, ⟨"tier", "web"⟩]⟩]
      (by decide) (by decide)).2.2.1 (by decide) (by decide) (GoError.new "describe failed")
      (by decide)⟩

theorem wraps_ResourceFunc (ns : String) (e : GoError) :
    WrapsWithStageAndNamespace
      (GoError.errorf ("failed to apply ResourceFunc for " ++ ns ++ ", " ++ e.Error) e) e
      "ResourceFunc" ns := by
  refine ⟨rfl, ?_, ?_⟩
  · refine ⟨"failed to apply ".toList, (" for " ++ ns ++ ", " ++ e.Error).toList, ?_⟩
    simp only [GoError.Error, String.toList, String.data_append]
    simp
  · refine ⟨"failed to apply ResourceFunc for ".toList, (", " ++ e.Error).toList, ?_⟩
    simp only [GoError.Error, String.toList, String.data_append]
    simp

theorem wraps_FilterFunc (ns : String) (e : GoError) :
    WrapsWithStageAndNamespace
      (GoError.errorf ("failed to apply FilterFunc for " ++ ns ++ ", " ++ e.Error) e) e
      "FilterFunc" ns := by
  refine ⟨rfl, ?_, ?_⟩
  · refine ⟨"failed to apply ".toList, (" for " ++ ns ++ ", " ++ e.Error).toList, ?_⟩
    simp only [GoError.Error, String.toList, String.data_append]
    simp
  · refine ⟨"failed to apply FilterFunc for ".toList, (", " ++ e.Error).toList, ?_⟩
    simp only [GoError.Error, String.toList, String.data_append]
    simp

/-- C6, counterexample.  The tagging API fails for a job of namespace `AWS/EC2`:
the error returned by `GetResources` is the provider error itself; it wraps
nothing and its text does not mention the namespace. -/
theorem GetResources_discovery_error_untagged :
    discoveryError throttledClient ec2Service = some ⟨"Throttling", "rate exceeded"⟩ ∧
    GetResources throttledClient prodJob "eu-west-1" =
      some ⟨[], some (GoError.provider ⟨"Throttling", "rate exceeded"⟩), [Stage.discovery]⟩ ∧
    (GoError.provider ⟨"Throttling", "rate exceeded"⟩).Unwrap = none ∧
    ¬ ∃ cause stage, WrapsWithStageAndNamespace
        (GoError.provider ⟨"Throttling", "rate exceeded"⟩) cause stage "AWS/EC2" := by
  refine ⟨by decide, by decide, rfl, ?_⟩
  rintro ⟨cause, stage, h, _⟩
  cases h

/-- C6, amended.  Let the service be known and the yielded entries decode to the
generic set `G`.  When the registered `ResourceFunc` or the registered
`FilterFunc` returns an error, the error returned by `GetResources` wraps that
cause and its text names the failing hook and the namespace.  When the paged
discovery call returns an error, `GetResources` returns that provider error as
it is. -/
theorem GetResources_error_of_failing_stage (c : Client) (job : Job) (region : String)
    (svc : ServiceConfig) (G : List TaggedResource)
    (hsvc : c.GetService job.Type_ = some svc)
    (hG : genericResources c svc job region = some G) :
    (∀ e, discoveryError c svc = some e →
      ∃ out, GetResources c job region = some out ∧ out.err = some (GoError.provider e)) ∧
    (discoveryError c svc = none → ∀ e, (hookResources c svc job region).2 = some e →
      ∃ out err, GetResources c job region = some out ∧ out.err = some err ∧
        err.Error = "failed to apply ResourceFunc for " ++ svc.Namespace ++ ", " ++ e.Error ∧
        WrapsWithStageAndNamespace err e "ResourceFunc" svc.Namespace) ∧
    (discoveryError c svc = none → (hookResources c svc job region).2 = none →
      ∀ e, (hookFilter c svc (G ++ (hookResources c svc job region).1)).2 = some e →
      ∃ out err, GetResources c job region = some out ∧ out.err = some err ∧
        err.Error = "failed to apply FilterFunc for " ++ svc.Namespace ++ ", " ++ e.Error ∧
        WrapsWithStageAndNamespace err e "FilterFunc" svc.Namespace) :=
  ⟨fun e hd => ⟨_, GetResources_of_discovery_error c job region svc G hsvc hG e hd, rfl⟩,
   fun hd e hR =>
     ⟨_, _, GetResources_of_ResourceFunc_error c job region svc G hsvc hG hd e hR, rfl, rfl,
       wraps_ResourceFunc svc.Namespace e⟩,
   fun hd hR e hF =>
     ⟨_, _, GetResources_of_FilterFunc_error c job region svc G hsvc hG hd hR e hF, rfl, rfl,
       wraps_FilterFunc svc.Namespace e⟩⟩

/-- Witness of the amended C6: a failing `ResourceFunc` for the namespace
`AWS/EC2`. -/
theorem GetResources_error_of_failing_stage_witness :
    ∃ out err, GetResources failingResourceFuncClient prodJob "eu-west-1" = some out ∧
      out.err = some err ∧
      err.Error = "failed to apply ResourceFunc for " ++ "AWS/EC2" ++ ", " ++
        (GoError.new "autoscaling unavailable").Error ∧
      WrapsWithStageAndNamespace err (GoError.new "autoscaling unavailable")
        "ResourceFunc" "AWS/EC2" :=
  (GetResources_error_of_failing_stage failingResourceFuncClient prodJob "eu-west-1"
    ec2Service
    [⟨"arn:a1", "AWS/EC2", "eu-west-1", [⟨"env", "prod"⟩]⟩,
     ⟨"arn:a3", "AWS/EC2", "eu-west-1", [⟨"env", "prod"⟩, ⟨"tier", "web"⟩]⟩]
    (by decide) (by decide)).2.1 (by decide) (GoError.new "autoscaling unavailable")
    (by decide)

/-- C8, counterexample.  The service declares a resource-type filter and the
tagging API completes with zero entries, but the `ResourceFunc` of the namespace
finds a resource: `GetResources` returns it with a nil error. -/
theorem GetResources_zero_entries_with_hook :
    ec2Service.ResourceFilters ≠ [] ∧
    emptyPageHookClient.GetService prodJob.Type_ = some ec2Service ∧
    discoveryEntries emptyPageHookClient ec2Service = [] ∧
    discoveryError emptyPageHookClient ec2Service = none ∧
    GetResources emptyPageHookClient prodJob "eu-west-1" =
      some ⟨[⟨"arn:a4", "AWS/EC2", "eu-west-1", []⟩], none,
        [Stage.discovery, Stage.resourceFunc]⟩ := by
  refine ⟨by decide, by decide, by decide, by decide, by decide⟩

/-- C8, amended.  For a job whose service declares at least one resource-type
filter, if the tagging API completes pagination without error having yielded
zero entries, then `GetResources` returns `ErrExpectedToFindResources` whenever
no hook is registered for the namespace, and more generally whenever the
registered `ResourceFunc` returns no error and the registered `FilterFunc`
returns no error and leaves the set empty. -/
theorem GetResources_zero_entries_expected (c : Client) (job : Job) (region : String)
    (svc : ServiceConfig) (hsvc : c.GetService job.Type_ = some svc)
    (hfilters : svc.ResourceFilters ≠ [])
    (hzero : discoveryEntries c svc = [])
    (hdone : discoveryError c svc = none) :
    (c.serviceFilters svc.Namespace = none →
      GetResources c job region =
        some ⟨[], some ErrExpectedToFindResources, [Stage.discovery]⟩) ∧
    ((hookResources c svc job region).2 = none →
      hookFilter c svc (hookResources c svc job region).1 = ([], none) →
      GetResources c job region =
        some ⟨[], some ErrExpectedToFindResources, allCalls c svc⟩) := by
  have hG : genericResources c svc job region = some [] := by
    simp [genericResources, hfilters, hzero, collect]
  have hexp : discoveryExpected c svc = true := by
    cases h : svc.ResourceFilters with
    | nil => exact absurd h hfilters
    | cons a l => simp [discoveryExpected, h]
  have key : (hookResources c svc job region).2 = none →
      hookFilter c svc (hookResources c svc job region).1 = ([], none) →
      GetResources c job region =
        some ⟨[], some ErrExpectedToFindResources, allCalls c svc⟩ := by
    intro hR hF
    rw [GetResources_stages c job region svc [] hsvc hG]
    rcases hR1 : hookResources c svc job region with ⟨R, eR⟩
    rw [hR1] at hR hF
    simp only at hR hF
    subst hR
    simp only [hdone, hR1, List.nil_append, hF, getResourcesReturn_of_empty _ _ hexp]
  refine ⟨fun hnone => ?_, key⟩
  have hcalls : allCalls c svc = [Stage.discovery] := by
    simp [allCalls, registeredResourceFunc, registeredFilterFunc, hnone, hfilters]
  rw [← hcalls]
  apply key
  · simp [hookResources, registeredResourceFunc, hnone]
  · simp [hookResources, hookFilter, registeredResourceFunc, registeredFilterFunc, hnone]

/-- Witness of the amended C8: no hook is registered and the tagging API yields
one empty page. -/
theorem GetResources_zero_entries_expected_witness :
    GetResources emptyClient prodJob "eu-west-1" =
      some ⟨[], some ErrExpectedToFindResources, [Stage.discovery]⟩ :=
  (GetResources_zero_entries_expected emptyClient prodJob "eu-west-1" ec2Service
    (by decide) (by decide) (by decide) (by decide)).1 rfl

end Tagging

namespace Cloudwatch

theorem collect_length {α β : Type} (f : α → Option β) (xs : List α) (ys : List β)
    (h : collect f xs = some ys) : ys.length = xs.length := by
  induction xs generalizing ys with
  | nil => simp [collect] at h; subst h; rfl
  | cons x xs ih =>
    simp only [collect] at h
    cases hx : f x with
    | none => simp [hx] at h
    | some b =>
      cases hxs : collect f xs with
      | none => simp [hx, hxs] at h
      | some bs =>
        simp [hx, hxs] at h
        subst h
        simp [ih bs hxs]

theorem appendModelDimensions_eq (ds : List (Option CwDimension)) (acc : List Dimension) :
    appendModelDimensions ds acc =
      match collect decodeDimension ds with
      | none => none
      | some xs => some (acc ++ xs) := by
  induction ds generalizing acc with
  | nil => simp [appendModelDimensions, collect]
  | cons d ds ih =>
    rcases d with _ | ⟨_ | name, _ | value⟩ <;>
      simp [appendModelDimensions, collect, decodeDimension, ih]
    cases collect decodeDimension ds <;> simp

theorem appendModelMetrics_eq (ms : List (Option CwMetric)) (acc : List Metric) :
    appendModelMetrics ms acc =
      match collect decodeMetric ms with
      | none => none
      | some xs => some (acc ++ xs) := by
  induction ms generalizing acc with
  | nil => simp [appendModelMetrics, collect]
  | cons m ms ih =>
    rcases m with _ | ⟨_ | name, _ | ns, ds⟩ <;>
      simp [appendModelMetrics, collect, decodeMetric, toModelDimensions,
        appendModelDimensions_eq, ih]
    cases collect decodeDimension ds with
    | none => simp
    | some xs =>
      simp only []
      cases collect decodeMetric ms <;> simp

theorem toModelMetric_eq (page : ListMetricsOutput) : toModelMetric page = decodePage page := by
  unfold toModelMetric decodePage
  rw [appendModelMetrics_eq]
  cases collect decodeMetric page.Metrics <;> simp

theorem eachPage_listMetricsPage {σ : Type} (fn : σ → List Metric → σ)
    (pages : List (ListMetricsOutput × Bool)) (err : Option ProviderError) (s : σ) :
    eachPage (listMetricsPage fn) pages err s =
      match collect decodePage (deliveredPages pages) with
      | none => none
      | some decoded => some (decoded.foldl fn s, (pagingError pages err).map GoError.provider) := by
  induction pages generalizing s with
  | nil => simp [eachPage, deliveredPages, pagingError, collect]
  | cons p pages ih =>
    obtain ⟨page, lastPage⟩ := p
    simp only [eachPage, listMetricsPage, toModelMetric_eq, deliveredPages, pagingError, collect]
    cases decodePage page with
    | none => simp
    | some ms =>
      cases lastPage with
      | true => simp [collect]
      | false =>
        simp only [Bool.not_false, ih, Bool.false_eq_true, if_false]
        cases collect decodePage (deliveredPages pages) <;> simp

theorem delivered_of_last_only {P : Type} (pages : List (P × Bool)) (n : Nat)
    (err : Option ProviderError)
    (hflags : pages.map Prod.snd = List.replicate (n - 1) false ++ [true]) :
    deliveredPages pages = pages.map Prod.fst ∧ pagingError pages err = none := by
  induction pages generalizing n with
  | nil => simp at hflags
  | cons p pages ih =>
    obtain ⟨page, lastPage⟩ := p
    rcases hn : n - 1 with _ | k
    · rw [hn] at hflags
      simp only [List.map_cons, List.replicate_zero, List.nil_append, List.cons.injEq,
        List.map_eq_nil_iff] at hflags
      obtain ⟨h1, h2⟩ := hflags
      subst h1 h2
      simp [deliveredPages, pagingError]
    · rw [hn] at hflags
      simp only [List.map_cons, List.replicate_succ, List.cons_append, List.cons.injEq] at hflags
      obtain ⟨h1, h2⟩ := hflags
      subst h1
      have := ih (k + 1) (by simpa using h2)
      simp [deliveredPages, pagingError, this.1, this.2]

theorem foldl_log {α : Type} (xs : List α) (acc : List α) :
    xs.foldl (fun log page => log ++ [page]) acc = acc ++ xs := by
  induction xs generalizing acc with
  | nil => simp
  | cons x xs ih => simp [ih]

/-- C9. Let the provider answer the request of `ListMetrics` with `n ≥ 1` pages
and report the last page only on page `n`, and let the pages decode, in order,
to `decoded` (each metric with its name, its namespace and its dimensions in
order).  Then there are `n` decoded pages, `ListMetrics` leaves the callback in
the state reached by calling it on each decoded page in page order, and returns
no error; in particular a callback that records its arguments has recorded
exactly `decoded`. -/
theorem ListMetrics_calls_onPage_once_per_page {σ : Type} (c : Client) (namespace_ : String)
    (metric : MetricConfig) (recentlyActiveOnly : Bool) (fn : σ → List Metric → σ) (s : σ)
    (n : Nat) (decoded : List (List Metric)) (hn : 1 ≤ n)
    (hflags :
      (c.ListMetricsPagesWithContext
        (listMetricsInput namespace_ metric recentlyActiveOnly)).pages.map Prod.snd =
        List.replicate (n - 1) false ++ [true])
    (hdec : collect decodePage
      ((c.ListMetricsPagesWithContext
        (listMetricsInput namespace_ metric recentlyActiveOnly)).pages.map Prod.fst) =
        some decoded) :
    decoded.length = n ∧
    ListMetrics c namespace_ metric recentlyActiveOnly fn s =
      some (decoded.foldl fn s, none) ∧
    ListMetrics c namespace_ metric recentlyActiveOnly (fun log page => log ++ [page]) [] =
      some (decoded, none) := by
  have hd := delivered_of_last_only _ n
    (c.ListMetricsPagesWithContext (listMetricsInput namespace_ metric recentlyActiveOnly)).err
    hflags
  have hrun : ∀ (τ : Type) (g : τ → List Metric → τ) (t : τ),
      ListMetrics c namespace_ metric recentlyActiveOnly g t = some (decoded.foldl g t, none) := by
    intro τ g t
    unfold ListMetrics
    simp only [eachPage_listMetricsPage, hd.1, hd.2, hdec, Option.map_none']
  refine ⟨?_, hrun σ fn s, ?_⟩
  · have h1 := collect_length _ _ _ hdec
    have h2 := congrArg List.length hflags
    simp only [List.length_map, List.length_append, List.length_replicate,
      List.length_singleton] at h1 h2
    omega
  · rw [hrun, foldl_log, List.nil_append]

/-- Witness of C9: three pages, the third reported as the last. -/
theorem ListMetrics_calls_onPage_once_per_page_witness :
    ListMetrics sampleClient "AWS/EC2" ⟨"CPUUtilization"⟩ true
        (fun log page => log ++ [page]) [] =
      some ([[⟨"CPUUtilization", "AWS/EC2", [⟨"InstanceId", "i-1"⟩]⟩,
              ⟨"CPUUtilization", "AWS/EC2", [⟨"InstanceId", "i-2"⟩]⟩],
             [],
             [⟨"CPUUtilization", "AWS/EC2", []⟩]], none) :=
  (ListMetrics_calls_onPage_once_per_page sampleClient "AWS/EC2" ⟨"CPUUtilization"⟩ true
    (fun log page => log ++ [page]) [] 3
    [[⟨"CPUUtilization", "AWS/EC2", [⟨"InstanceId", "i-1"⟩]⟩,
      ⟨"CPUUtilization", "AWS/EC2", [⟨"InstanceId", "i-2"⟩]⟩],
     [],
     [⟨"CPUUtilization", "AWS/EC2", []⟩]]
    (by decide) (by decide) (by decide)).2.2

theorem appendMetricDataResults_maps (rs : List (Option CwMetricDataResult))
    (acc : List MetricDataResult) (hwf : ∀ r ∈ rs, WellFormedResult r) :
    ∃ out, appendMetricDataResults rs acc = some (acc ++ out) ∧ List.Forall₂ MapsTo rs out := by
  induction rs generalizing acc with
  | nil => exact ⟨[], by simp [appendMetricDataResults], List.Forall₂.nil⟩
  | cons r rs ih =>
    obtain ⟨x, id, hr, hid, hts⟩ := hwf r (List.mem_cons_self _ _)
    have hrest : ∀ r1 ∈ rs, WellFormedResult r1 := fun r1 h1 => hwf r1 (List.mem_cons_of_mem _ h1)
    subst hr
    rcases hv : x.Values with _ | ⟨v, vs⟩
    · obtain ⟨out, hout, hmaps⟩ := ih (acc ++ [⟨id, none, Time.zero⟩]) hrest
      refine ⟨⟨id, none, Time.zero⟩ :: out, ?_, List.Forall₂.cons ?_ hmaps⟩
      · simp [appendMetricDataResults, hid, hv, hout]
      · refine ⟨x, rfl, hid, fun _ => ⟨rfl, rfl⟩, ?_⟩
        intro v vs h
        rw [hv] at h
        cases h
    · obtain ⟨t, ts, ht⟩ := hts (by rw [hv]; simp)
      obtain ⟨out, hout, hmaps⟩ := ih (acc ++ [⟨id, v, t⟩]) hrest
      refine ⟨⟨id, v, t⟩ :: out, ?_, List.Forall₂.cons ?_ hmaps⟩
      · simp [appendMetricDataResults, hid, hv, ht, hout]
      · refine ⟨x, rfl, hid, ?_, ?_⟩
        · intro h
          rw [hv] at h
          cases h
        · intro v1 vs1 h
          rw [hv] at h
          cases h
          exact ⟨rfl, ts, ht⟩

/-- C3. When every result of the provider response carries an id and, if it has
at least one value, a first timestamp, `toMetricDataResult` returns one mapped
result per response entry, in the same order and with the same id: an entry
with values maps to its first value and its first timestamp, an entry without
values to a placeholder whose datapoint is nil and whose timestamp is the zero
time. -/
theorem toMetricDataResult_maps_each_result (resp : GetMetricDataOutput)
    (hwf : ∀ r ∈ resp.MetricDataResults, WellFormedResult r) :
    ∃ out, toMetricDataResult resp = some out ∧
      List.Forall₂ MapsTo resp.MetricDataResults out := by
  obtain ⟨out, hout, hmaps⟩ := appendMetricDataResults_maps resp.MetricDataResults [] hwf
  exact ⟨out, by simpa [toMetricDataResult] using hout, hmaps⟩

/-- Witness of C3: `q1` with values `[10.0, 9.0]` and timestamps `[T2, T1]` maps
to 10.0 at T2, and `q2` without values maps to the placeholder. -/
theorem toMetricDataResult_maps_each_result_witness :
    toMetricDataResult sampleOutput =
        some [⟨"q1", some ten, t2⟩, ⟨"q2", none, Time.zero⟩] ∧
    ∃ out, toMetricDataResult sampleOutput = some out ∧
      List.Forall₂ MapsTo sampleOutput.MetricDataResults out :=
  ⟨by decide,
   toMetricDataResult_maps_each_result sampleOutput (by
     intro r hr
     simp only [sampleOutput, List.mem_cons, List.mem_singleton, List.not_mem_nil,
       or_false] at hr
     rcases hr with rfl | rfl
     · exact ⟨_, "q1", rfl, rfl, fun _ => ⟨t2, [some t1], rfl⟩⟩
     · exact ⟨_, "q2", rfl, rfl, fun h => absurd rfl h⟩)⟩

theorem eachPage_getMetricDataPage (pages : List (GetMetricDataOutput × Bool))
    (err : Option ProviderError) (acc : List (Option CwMetricDataResult)) :
    eachPage getMetricDataPage pages err acc =
      some (acc ++ (deliveredPages pages).flatMap (fun page => page.MetricDataResults),
        (pagingError pages err).map GoError.provider) := by
  induction pages generalizing acc with
  | nil => simp [eachPage, deliveredPages, pagingError]
  | cons p pages ih =>
    obtain ⟨page, lastPage⟩ := p
    cases lastPage <;>
      simp [eachPage, getMetricDataPage, deliveredPages, pagingError, ih]

/-- C4. For every list of queries and every time window, if the paged
metric-data call of the provider returns an error, `GetMetricData` returns the
empty result set (and has no error to return), whatever pages had been received
and accumulated before the failure. -/
theorem GetMetricData_empty_on_provider_error (c : Client)
    (getMetricData : List CloudwatchData) (namespace_ : String) (startTime endTime : Time)
    (e : ProviderError)
    (herr : pagingError
      (c.GetMetricDataPagesWithContext
        (getMetricDataInput c getMetricData namespace_ startTime endTime)).pages
      (c.GetMetricDataPagesWithContext
        (getMetricDataInput c getMetricData namespace_ startTime endTime)).err = some e) :
    GetMetricData c getMetricData namespace_ startTime endTime = some [] := by
  unfold GetMetricData
  simp only [eachPage_getMetricDataPage, herr, Option.map_some']

/-- Witness of C4: the provider fails after a first page of results had been
received. -/
theorem GetMetricData_empty_on_provider_error_witness :
    (deliveredPages (sampleClient.GetMetricDataPagesWithContext
      (getMetricDataInput sampleClient [sampleQuery] "AWS/EC2" t1 t2)).pages).flatMap
      (fun page => page.MetricDataResults) = sampleOutput.MetricDataResults ∧
    GetMetricData sampleClient [sampleQuery] "AWS/EC2" t1 t2 = some [] :=
  ⟨by decide,
   GetMetricData_empty_on_provider_error sampleClient [sampleQuery] "AWS/EC2" t1 t2
     ⟨"InternalServiceFault", "try again"⟩ (by decide)⟩

end Cloudwatch

end Yace
